import Mathlib

/-!
Verification development for the Lief notes repository.

Part 1 embeds the ownership-scoped note store, the four HTTP handlers of
`src/app/api/notes/route.ts` (GET, POST, PATCH, DELETE), over a list model
of the MongoDB `notes` collection.  Part 2 embeds the scan ingestion
pipeline of the main page component (`handleScanFile`, `runOcrOnImage`,
`renderPdfToImage`) as an event trace over the component's state.

Conventions:
* a MongoDB document of the `notes` collection is a `Note`; its `_id`
  rendered as a string is the `id` field; `doctorId` is the owner key
  (the session user's email);
* request-body fields that may be absent are `Option String`;
  JavaScript truthiness of such a field is `truthy` (absent or empty
  string is falsy);
* `x ?? ""` is `Option.getD x ""`;
* handler outcomes are `ApiResponse`: a success payload, an error
  response with an HTTP status, or `thrown` for an uncaught exception
  (the `new ObjectId(id)` constructor throwing on a malformed id);
* MongoDB `findOne` is `List.find?`, `updateOne` / `deleteOne` update or
  remove the first matching document (`updateFirst` / `removeFirst`);
  the uniqueness of `_id` is the `Nodup` hypothesis on the id column.
-/

/-- A stored note document, as inserted by the POST handler. -/
structure Note where
  id : String
  doctorId : String
  title : String
  source : String
  contentHtml : String
  ocrText : String
  fileUrl : String
  fileName : String
  fileType : String
  filePublicId : String
  createdAt : Nat
  updatedAt : Option Nat
deriving DecidableEq

/-- Outcome of a handler: JSON success payload, error response with an
HTTP status code and message, or an uncaught exception. -/
inductive ApiResponse (α : Type) where
  | ok (value : α)
  | err (status : Nat) (msg : String)
  | thrown
deriving DecidableEq

/-- JavaScript truthiness of an optional string body field: absent
(undefined or null) and the empty string are falsy. -/
def truthy : Option String → Bool
  | none => false
  | some s => s ≠ ""

/-- Hexadecimal digit, as accepted by the BSON ObjectId hex check. -/
def isHexChar (c : Char) : Bool :=
  c.isDigit || ('a' ≤ c && c ≤ 'f') || ('A' ≤ c && c ≤ 'F')

/-- Validity of a JSON string as an ObjectId: `new ObjectId(s)` succeeds
on a string exactly when it is 24 hexadecimal characters, and throws a
BSONError otherwise. -/
def isValidObjectId (s : String) : Bool :=
  s.length == 24 && s.data.all isHexChar

/-- Sort key of the GET handler: `sort({ createdAt: -1 })`. -/
def byCreatedAtDesc (a b : Note) : Prop := b.createdAt ≤ a.createdAt

instance : DecidableRel byCreatedAtDesc := fun _ _ => Nat.decLe _ _

instance : IsTotal Note byCreatedAtDesc :=
  ⟨fun a b => Nat.le_total b.createdAt a.createdAt⟩

instance : IsTrans Note byCreatedAtDesc :=
  ⟨fun _ _ _ hab hbc => Nat.le_trans hbc hab⟩

/-- MongoDB `updateOne`: rewrite the first document matching the filter. -/
def updateFirst (p : Note → Bool) (f : Note → Note) : List Note → List Note
  | [] => []
  | n :: rest => if p n then f n :: rest else n :: updateFirst p f rest

/-- MongoDB `deleteOne`: remove the first document matching the filter. -/
def removeFirst (p : Note → Bool) : List Note → List Note
  | [] => []
  | n :: rest => if p n then rest else n :: removeFirst p rest

/-- GET handler: 401 without a session, otherwise the caller's notes
(filter `{ doctorId: email }`) sorted by `createdAt` descending.  The
route then serialises each document (`_id` to its string form,
`createdAt` to ISO-8601), a per-element formatting step that preserves
the list's membership and order and is omitted here. -/
def GET (session : Option String) (store : List Note) : ApiResponse (List Note) :=
  match session with
  | none => .err 401 "Unauthorized"
  | some email =>
      .ok (List.insertionSort byCreatedAtDesc
        (store.filter (fun n => n.doctorId == email)))

/-- Body of a POST request; every field is optional in JSON. -/
structure PostBody where
  title : Option String := none
  source : Option String := none
  contentHtml : Option String := none
  ocrText : Option String := none
  fileUrl : Option String := none
  fileName : Option String := none
  fileType : Option String := none
  filePublicId : Option String := none
deriving DecidableEq

/-- POST handler: 401 without a session; 400 when `title` or `source`
is falsy; otherwise inserts a document with every optional field
defaulted to the empty string (`?? ""`) and `createdAt := now`.
`newId` is the `_id` MongoDB assigns to the inserted document. -/
def POST (session : Option String) (now : Nat) (newId : String)
    (body : PostBody) (store : List Note) : ApiResponse String × List Note :=
  match session with
  | none => (.err 401 "Unauthorized", store)
  | some email =>
      if truthy body.title && truthy body.source then
        (.ok newId, store ++ [{
          id := newId
          doctorId := email
          title := body.title.getD ""
          source := body.source.getD ""
          contentHtml := body.contentHtml.getD ""
          ocrText := body.ocrText.getD ""
          fileUrl := body.fileUrl.getD ""
          fileName := body.fileName.getD ""
          fileType := body.fileType.getD ""
          filePublicId := body.filePublicId.getD ""
          createdAt := now
          updatedAt := none }])
      else (.err 400 "Missing required fields.", store)

/-- Body of a PATCH request. -/
structure PatchBody where
  id : Option String := none
  title : Option String := none
  contentHtml : Option String := none
  ocrText : Option String := none
deriving DecidableEq

/-- Bare `$set` document of the PATCH handler applied to a matched note:
`title` and `updatedAt` always, then `contentHtml ?? ""` when the
previously fetched note has `source === "manual"`, else `ocrText ?? ""`. -/
def patchNote (body : PatchBody) (now : Nat) (existing : Note) (n : Note) : Note :=
  if existing.source == "manual" then
    { n with title := body.title.getD "", updatedAt := some now,
             contentHtml := body.contentHtml.getD "" }
  else
    { n with title := body.title.getD "", updatedAt := some now,
             ocrText := body.ocrText.getD "" }

/-- PATCH handler: 401 without a session; 400 when `id` or `title` is
falsy; then `new ObjectId(id)` (thrown on a malformed id); then
`findOne({ _id, doctorId })` — 404 when absent; else `updateOne({ _id })`
with the `$set` document of `patchNote`. -/
def PATCH (session : Option String) (now : Nat) (body : PatchBody)
    (store : List Note) : ApiResponse Unit × List Note :=
  match session with
  | none => (.err 401 "Unauthorized", store)
  | some email =>
      if truthy body.id && truthy body.title then
        let idStr := body.id.getD ""
        if isValidObjectId idStr then
          match store.find? (fun n => n.id == idStr && n.doctorId == email) with
          | none => (.err 404 "Note not found or unauthorized", store)
          | some existing =>
              (.ok (), updateFirst (fun n => n.id == idStr)
                (patchNote body now existing) store)
        else (.thrown, store)
      else (.err 400 "Missing required fields.", store)

/-- DELETE handler: 401 without a session; 400 when `id` is falsy; then
`new ObjectId(id)` (thrown on a malformed id); then
`findOne({ _id, doctorId })` — 404 when absent; else `deleteOne({ _id })`. -/
def DELETE (session : Option String) (body : Option String)
    (store : List Note) : ApiResponse Unit × List Note :=
  match session with
  | none => (.err 401 "Unauthorized", store)
  | some email =>
      if truthy body then
        let idStr := body.getD ""
        if isValidObjectId idStr then
          match store.find? (fun n => n.id == idStr && n.doctorId == email) with
          | none => (.err 404 "Note not found or unauthorized", store)
          | some _ => (.ok (), removeFirst (fun n => n.id == idStr) store)
        else (.thrown, store)
      else (.err 400 "Missing note ID", store)

/-!
Part 2: the scan ingestion pipeline of the page component.

`handleScanFile` drives one ingestion job over the component's state
(`scanFile`, `scanPreview`, `ocrText`, `ocrProgress`, `ocrBusy`).  Each
React state-setter call is one atomic `UiEvent`; a job is the list of
events it issues in program order (`scanTrace`), and running the job to
completion folds that trace over the state.  External asynchronous
collaborators (`FileReader` via `fileToBase64`, pdf.js via
`renderPdfToImage`, tesseract.js via the worker in `runOcrOnImage`) are
an environment `ScanEnv` of outcome functions: `Except Unit` for a
fulfilled or rejected promise, and the tesseract run also carries the
list of logger messages it emitted.
-/

/-- Fallback transcript installed by the catch-all of `handleScanFile`. -/
def fallbackMessage : String := "Unable to extract text. Please try a clearer scan."

/-- Status string tesseract.js reports while the recognition sub-stage runs. -/
def recognizingStatus : String := "recognizing text"

/-- A selected file: its name and declared media type (`file.type`). -/
structure ScanFile where
  name : String
  mimeType : String
deriving DecidableEq

/-- Input handed to the recognizer: the data URL produced by the
rasterizer for a PDF, or the original file otherwise. -/
inductive OcrSource where
  | dataUrl (s : String)
  | originalFile (f : ScanFile)
deriving DecidableEq

/-- One tesseract.js logger message: a status string and a progress
number (idealised as a rational). -/
structure OcrMessage where
  status : String
  progress : ℚ
deriving DecidableEq

/-- One tesseract.js run: the logger messages emitted in order, then the
recognition outcome (recognised text, or a rejected promise). -/
structure OcrRun where
  messages : List OcrMessage
  result : Except Unit String

/-- Outcomes of the external asynchronous collaborators. -/
structure ScanEnv where
  fileToBase64 : ScanFile → Except Unit String
  renderPdfToImage : ScanFile → Except Unit String
  recognize : OcrSource → OcrRun

/-- JavaScript `Math.round`: round half toward positive infinity. -/
def jsRound (q : ℚ) : ℤ := ⌊q + 1 / 2⌋

/-- Logger callback of `runOcrOnImage` for one message: publish
`Math.round(progress * 100)` only when the status is the recognizing
sub-stage and `progress` is truthy (nonzero). -/
def loggerEmit (m : OcrMessage) : Option ℤ :=
  if m.status = recognizingStatus ∧ m.progress ≠ 0 then
    some (jsRound (m.progress * 100))
  else none

/-- Progress values published over one tesseract run, in order. -/
def loggerUpdates (msgs : List OcrMessage) : List ℤ :=
  msgs.filterMap loggerEmit

/-- Routing of the OCR source in `handleScanFile`: a PDF goes through
`renderPdfToImage` (whose failure propagates), any other file is handed
over unchanged. -/
def ocrRoute (env : ScanEnv) (file : ScanFile) : Except Unit OcrSource :=
  if file.mimeType = "application/pdf" then
    (env.renderPdfToImage file).map OcrSource.dataUrl
  else .ok (.originalFile file)

/-- Input that `handleScanFile` hands to `runOcrOnImage`, when the run
reaches it: `none` when the job fails before recognition starts. -/
def recognizerInput (env : ScanEnv) (file : ScanFile) : Option OcrSource :=
  match env.fileToBase64 file with
  | .error _ => none
  | .ok _ => (ocrRoute env file).toOption

/-- Component state touched by one ingestion job. -/
structure UiState where
  scanFile : Option ScanFile
  scanPreview : Option String
  ocrText : String
  ocrProgress : ℤ
  ocrBusy : Bool
deriving DecidableEq

/-- One React state-setter call. -/
inductive UiEvent where
  | setScanFile (v : Option ScanFile)
  | setScanPreview (v : Option String)
  | setOcrText (v : String)
  | setOcrProgress (v : ℤ)
  | setOcrBusy (v : Bool)
deriving DecidableEq

/-- Effect of one setter call on the state. -/
def applyEvent (s : UiState) : UiEvent → UiState
  | .setScanFile v => { s with scanFile := v }
  | .setScanPreview v => { s with scanPreview := v }
  | .setOcrText v => { s with ocrText := v }
  | .setOcrProgress v => { s with ocrProgress := v }
  | .setOcrBusy v => { s with ocrBusy := v }

/-- Run a list of setter calls in order. -/
def applyEvents (es : List UiEvent) (s : UiState) : UiState :=
  es.foldl applyEvent s

/-- Executable model of JavaScript `String.prototype.trim`: drop leading
and trailing whitespace. -/
def jsTrim (s : String) : String :=
  ⟨((s.data.dropWhile Char.isWhitespace).reverse.dropWhile
      Char.isWhitespace).reverse⟩

/-- Synchronous prologue of `handleScanFile`, run as soon as a file is
selected: remember the file, clear the preview, clear the transcript,
reset progress to 0, mark the job busy. -/
def scanPrologue (file : ScanFile) : List UiEvent :=
  [.setScanFile (some file), .setScanPreview none, .setOcrText "",
   .setOcrProgress 0, .setOcrBusy true]

/-- Progress setter calls issued by the tesseract logger over a run. -/
def progressEvents (msgs : List OcrMessage) : List UiEvent :=
  (loggerUpdates msgs).map UiEvent.setOcrProgress

/-- Events of the try/catch body of `handleScanFile`: publish the
preview, rasterize when the file is a PDF, recognize, and store the
trimmed text — any rejection along the way is caught and stores the
fixed fallback message instead. -/
def scanBody (env : ScanEnv) (file : ScanFile) : List UiEvent :=
  match env.fileToBase64 file with
  | .error _ => [.setOcrText fallbackMessage]
  | .ok preview =>
      UiEvent.setScanPreview (some preview) ::
      match ocrRoute env file with
      | .error _ => [.setOcrText fallbackMessage]
      | .ok src =>
          progressEvents (env.recognize src).messages ++
          match (env.recognize src).result with
          | .error _ => [.setOcrText fallbackMessage]
          | .ok text => [.setOcrText (jsTrim text)]

/-- Full event trace of one ingestion job, in program order: prologue,
try/catch body, and the `finally` clause clearing the busy flag. -/
def scanTrace (env : ScanEnv) (file : ScanFile) : List UiEvent :=
  scanPrologue file ++ scanBody env file ++ [.setOcrBusy false]

/-- Running `handleScanFile` to completion with no interleaved job. -/
def handleScanFile (env : ScanEnv) (file : ScanFile) (s : UiState) : UiState :=
  applyEvents (scanTrace env file) s

/-- Progress values a trace publishes, in order. -/
def progressWrites (es : List UiEvent) : List ℤ :=
  es.filterMap (fun e => match e with
    | .setOcrProgress v => some v
    | _ => none)

/-!
Helper lemmas for the store handlers.
-/

/-- Validity of an ObjectId string forces it to be nonempty. -/
theorem ne_empty_of_validObjectId {s : String} (h : isValidObjectId s = true) :
    s ≠ "" := by
  intro he
  subst he
  exact absurd h (by decide)

/-- With a duplicate-free id column, `findOne({ _id, doctorId })` run for
the owner of a stored note returns exactly that note. -/
theorem find?_owner_of_nodup {store : List Note} {note : Note}
    (hnd : (store.map Note.id).Nodup) (hmem : note ∈ store) :
    store.find? (fun n => n.id == note.id && n.doctorId == note.doctorId) =
      some note := by
  induction store with
  | nil => cases hmem
  | cons h t ih =>
      rcases List.mem_cons.mp hmem with rfl | hmem'
      · simp [List.find?]
      · have hnd2 : (∀ x ∈ t, ¬x.id = h.id) ∧ (List.map Note.id t).Nodup := by
          simpa using hnd
        have hid : h.id ≠ note.id := fun he => hnd2.1 note hmem' (he ▸ rfl)
        have hpred : (h.id == note.id && h.doctorId == note.doctorId) = false := by
          simp [hid]
        rw [List.find?_cons_of_neg _ (by simp [hpred])]
        exact ih hnd2.2 hmem'

/-- With a duplicate-free id column, `updateOne({ _id })` rewrites the
stored note carrying that id. -/
theorem mem_updateFirst_self {store : List Note} {note : Note} (f : Note → Note)
    (hnd : (store.map Note.id).Nodup) (hmem : note ∈ store) :
    f note ∈ updateFirst (fun n => n.id == note.id) f store := by
  induction store with
  | nil => cases hmem
  | cons h t ih =>
      rcases List.mem_cons.mp hmem with rfl | hmem'
      · simp [updateFirst]
      · have hnd2 : (∀ x ∈ t, ¬x.id = h.id) ∧ (List.map Note.id t).Nodup := by
          simpa using hnd
        have hid : h.id ≠ note.id := fun he => hnd2.1 note hmem' (he ▸ rfl)
        simp only [updateFirst, beq_iff_eq, if_neg hid]
        exact List.mem_cons_of_mem _ (ih hnd2.2 hmem')

/-- Notes with a different id survive `updateOne({ _id })` unchanged. -/
theorem mem_updateFirst_of_ne {store : List Note} {m : Note} {key : String}
    (f : Note → Note) (hm : m ∈ store) (hne : m.id ≠ key) :
    m ∈ updateFirst (fun n => n.id == key) f store := by
  induction store with
  | nil => cases hm
  | cons h t ih =>
      by_cases hph : h.id = key
      · simp only [updateFirst, beq_iff_eq, if_pos hph]
        rcases List.mem_cons.mp hm with rfl | hm'
        · exact absurd hph hne
        · exact List.mem_cons_of_mem _ hm'
      · simp only [updateFirst, beq_iff_eq, if_neg hph]
        rcases List.mem_cons.mp hm with rfl | hm'
        · exact List.mem_cons_self _ _
        · exact List.mem_cons_of_mem _ (ih hm')

/-- After `deleteOne({ _id })` removes a stored note, no note carrying
that id remains (the id column was duplicate-free). -/
theorem removeFirst_id_not_mem {store : List Note} {note : Note}
    (hnd : (store.map Note.id).Nodup) (hmem : note ∈ store) :
    ∀ m ∈ removeFirst (fun n => n.id == note.id) store, m.id ≠ note.id := by
  induction store with
  | nil => intro m hm; cases hm
  | cons h t ih =>
      intro m hm
      have hnd2 : (∀ x ∈ t, ¬x.id = h.id) ∧ (List.map Note.id t).Nodup := by
        simpa using hnd
      by_cases hph : h.id = note.id
      · rw [removeFirst, if_pos (by simpa using hph)] at hm
        intro he
        exact hnd2.1 m hm (he.trans hph.symm)
      · rw [removeFirst, if_neg (by simpa using hph)] at hm
        rcases List.mem_cons.mp hm with rfl | hm'
        · exact hph
        · have hmem' : note ∈ t := by
            rcases List.mem_cons.mp hmem with rfl | h'
            · exact absurd rfl hph
            · exact h'
          exact ih hnd2.2 hmem' m hm'

/-!
Sample data used by the concrete witnesses and counterexamples.
-/

/-- A well-formed ObjectId string (24 hexadecimal characters). -/
def sampleId : String := "507f1f77bcf86cd799439011"

/-- A second well-formed ObjectId string. -/
def sampleId2 : String := "507f1f77bcf86cd799439012"

/-- A stored manually-typed note. -/
def sampleManual : Note :=
  { id := sampleId, doctorId := "doc@x", title := "Visit 1",
    source := "manual", contentHtml := "<p>ok</p>", ocrText := "",
    fileUrl := "", fileName := "", fileType := "", filePublicId := "",
    createdAt := 10, updatedAt := none }

/-- A stored scanned note. -/
def sampleScan : Note :=
  { id := sampleId2, doctorId := "doc@x", title := "Scan 1",
    source := "scan", contentHtml := "", ocrText := "seen text",
    fileUrl := "https://files/x", fileName := "x.pdf",
    fileType := "application/pdf", filePublicId := "pid",
    createdAt := 11, updatedAt := none }

/-- A PATCH body that also tries to smuggle a transcript in. -/
def samplePatch : PatchBody :=
  { id := some sampleId, title := some "Visit 1b", contentHtml := none,
    ocrText := some "ignored" }

/-- C3: with an authenticated caller, the GET handler answers with
exactly the notes whose owner key equals the caller's identity — a
permutation of the owner-filtered store, never a foreign note — ordered
by `createdAt` descending. -/
theorem C3_list_owner_scoped (email : String) (store : List Note) :
    ∃ l, GET (some email) store = .ok l ∧
      (∀ n ∈ l, n.doctorId = email) ∧
      l.Perm (store.filter (fun n => n.doctorId == email)) ∧
      List.Pairwise byCreatedAtDesc l := by
  refine ⟨_, rfl, ?_, List.perm_insertionSort _ _, List.sorted_insertionSort _ _⟩
  intro n hn
  have hmem := (List.perm_insertionSort byCreatedAtDesc _).mem_iff.mp hn
  simpa using (List.mem_filter.mp hmem).2

/-- C1: a PATCH by the owner of a stored note always rewrites the title,
and never touches the content field inapplicable to the note's origin:
on a `manual` note only `contentHtml` changes and a supplied `ocrText`
is silently dropped; on a non-`manual` (`scan`) note only `ocrText`
changes and a supplied `contentHtml` is dropped. -/
theorem C1_patch_origin_gated (store : List Note) (note : Note) (now : Nat)
    (body : PatchBody)
    (hnd : (store.map Note.id).Nodup) (hmem : note ∈ store)
    (hid : body.id = some note.id) (ht : truthy body.title = true)
    (hvalid : isValidObjectId note.id = true) :
    (PATCH (some note.doctorId) now body store).1 = .ok () ∧
    ∃ n' ∈ (PATCH (some note.doctorId) now body store).2,
      n'.id = note.id ∧ n'.title = body.title.getD "" ∧
      (note.source = "manual" →
        n'.ocrText = note.ocrText ∧ n'.contentHtml = body.contentHtml.getD "") ∧
      (note.source ≠ "manual" →
        n'.contentHtml = note.contentHtml ∧ n'.ocrText = body.ocrText.getD "") := by
  have hne : note.id ≠ "" := ne_empty_of_validObjectId hvalid
  have hidt : truthy (some note.id) = true := by simpa [truthy] using hne
  have hfind := find?_owner_of_nodup hnd hmem
  have hres : PATCH (some note.doctorId) now body store =
      (.ok (), updateFirst (fun n => n.id == note.id)
        (patchNote body now note) store) := by
    simp [PATCH, hidt, ht, hid, hvalid, hfind]
  rw [hres]
  refine ⟨rfl, patchNote body now note note, ?_, ?_, ?_, ?_, ?_⟩
  · exact mem_updateFirst_self _ hnd hmem
  · unfold patchNote; split <;> rfl
  · unfold patchNote; split <;> rfl
  · intro hsrc
    have : (note.source == "manual") = true := by simpa using hsrc
    unfold patchNote
    rw [if_pos this]
    exact ⟨rfl, rfl⟩
  · intro hsrc
    have : (note.source == "manual") = false := by simpa using hsrc
    unfold patchNote
    rw [if_neg (by simp [this])]
    exact ⟨rfl, rfl⟩

/-- Witness for C1 at a concrete store: the owner patches the manual
note, the smuggled transcript is ignored. -/
theorem C1_patch_origin_gated_witness :
    (PATCH (some sampleManual.doctorId) 20 samplePatch [sampleManual]).1 = .ok () ∧
    ∃ n' ∈ (PATCH (some sampleManual.doctorId) 20 samplePatch [sampleManual]).2,
      n'.id = sampleManual.id ∧ n'.title = samplePatch.title.getD "" ∧
      (sampleManual.source = "manual" →
        n'.ocrText = sampleManual.ocrText ∧
        n'.contentHtml = samplePatch.contentHtml.getD "") ∧
      (sampleManual.source ≠ "manual" →
        n'.contentHtml = sampleManual.contentHtml ∧
        n'.ocrText = samplePatch.ocrText.getD "") :=
  C1_patch_origin_gated [sampleManual] sampleManual 20 samplePatch
    (by decide) (by decide) (by decide) (by decide) (by decide)

/-- C2: for an authenticated caller, when no stored note carries both
the requested id and the caller's owner key — the id is absent, or the
note belongs to someone else — PATCH and DELETE answer with one and the
same fixed 404 response and leave the store untouched; and a second
DELETE of a note just deleted falls into exactly that case. -/
theorem C2_notfound_or_forbidden :
    (∀ (email idStr : String) (store : List Note) (now : Nat) (body : PatchBody),
      body.id = some idStr → truthy body.title = true →
      isValidObjectId idStr = true →
      (∀ n ∈ store, ¬(n.id = idStr ∧ n.doctorId = email)) →
      PATCH (some email) now body store =
        (.err 404 "Note not found or unauthorized", store)) ∧
    (∀ (email idStr : String) (store : List Note),
      isValidObjectId idStr = true →
      (∀ n ∈ store, ¬(n.id = idStr ∧ n.doctorId = email)) →
      DELETE (some email) (some idStr) store =
        (.err 404 "Note not found or unauthorized", store)) ∧
    (∀ (email : String) (store : List Note) (note : Note),
      (store.map Note.id).Nodup → note ∈ store → note.doctorId = email →
      isValidObjectId note.id = true →
      (DELETE (some email) (some note.id) store).1 = .ok () ∧
      DELETE (some email) (some note.id) (DELETE (some email) (some note.id) store).2 =
        (.err 404 "Note not found or unauthorized",
          (DELETE (some email) (some note.id) store).2)) := by
  have hfindnone : ∀ (email idStr : String) (store : List Note),
      (∀ n ∈ store, ¬(n.id = idStr ∧ n.doctorId = email)) →
      store.find? (fun n => n.id == idStr && n.doctorId == email) = none := by
    intro email idStr store habs
    rw [List.find?_eq_none]
    intro n hn
    simpa using habs n hn
  refine ⟨?_, ?_, ?_⟩
  · intro email idStr store now body hid ht hvalid habs
    have hne : idStr ≠ "" := ne_empty_of_validObjectId hvalid
    have hidt : truthy (some idStr) = true := by simpa [truthy] using hne
    simp [PATCH, hid, hidt, ht, hvalid, hfindnone email idStr store habs]
  · intro email idStr store hvalid habs
    have hne : idStr ≠ "" := ne_empty_of_validObjectId hvalid
    have hidt : truthy (some idStr) = true := by simpa [truthy] using hne
    simp [DELETE, hidt, hvalid, hfindnone email idStr store habs]
  · intro email store note hnd hmem howner hvalid
    have hne : note.id ≠ "" := ne_empty_of_validObjectId hvalid
    have hidt : truthy (some note.id) = true := by simpa [truthy] using hne
    have hfind : store.find? (fun n => n.id == note.id && n.doctorId == email) =
        some note := by
      rw [← howner]; exact find?_owner_of_nodup hnd hmem
    have hdel : DELETE (some email) (some note.id) store =
        (.ok (), removeFirst (fun n => n.id == note.id) store) := by
      simp [DELETE, hidt, hvalid, hfind]
    refine ⟨by rw [hdel], ?_⟩
    rw [hdel]
    have habs : ∀ n ∈ removeFirst (fun n => n.id == note.id) store,
        ¬(n.id = note.id ∧ n.doctorId = email) := by
      intro n hn hcontr
      exact removeFirst_id_not_mem hnd hmem n hn hcontr.1
    simp [DELETE, hidt, hvalid,
      hfindnone email note.id (removeFirst (fun n => n.id == note.id) store) habs]

/-- Witness for C2 at a concrete store: a foreign caller's PATCH and
DELETE answer 404 leaving the store as it was, and the owner's second
DELETE of the same id answers 404 as well. -/
theorem C2_notfound_or_forbidden_witness :
    PATCH (some "other@x") 20 samplePatch [sampleManual] =
      (.err 404 "Note not found or unauthorized", [sampleManual]) ∧
    DELETE (some "other@x") (some sampleId) [sampleManual] =
      (.err 404 "Note not found or unauthorized", [sampleManual]) ∧
    ((DELETE (some "doc@x") (some sampleManual.id) [sampleManual]).1 = .ok () ∧
      DELETE (some "doc@x") (some sampleManual.id)
          (DELETE (some "doc@x") (some sampleManual.id) [sampleManual]).2 =
        (.err 404 "Note not found or unauthorized",
          (DELETE (some "doc@x") (some sampleManual.id) [sampleManual]).2)) :=
  ⟨C2_notfound_or_forbidden.1 "other@x" sampleId [sampleManual] 20 samplePatch
      (by decide) (by decide) (by decide) (by decide),
   C2_notfound_or_forbidden.2.1 "other@x" sampleId [sampleManual]
      (by decide) (by decide),
   C2_notfound_or_forbidden.2.2 "doc@x" [sampleManual] sampleManual
      (by decide) (by decide) (by decide) (by decide)⟩

/-- C10: a successful owner PATCH unconditionally overwrites the
origin-applicable content field: when the body omits `contentHtml` for a
`manual` note (or `ocrText` for a non-`manual` note) the stored field
becomes the empty string, so a title-only update erases the content;
every other stored field of the note, and every other note, is left
unchanged. -/
theorem C10_patch_overwrites_content (store : List Note) (note : Note)
    (now : Nat) (body : PatchBody)
    (hnd : (store.map Note.id).Nodup) (hmem : note ∈ store)
    (hid : body.id = some note.id) (ht : truthy body.title = true)
    (hvalid : isValidObjectId note.id = true) :
    (PATCH (some note.doctorId) now body store).1 = .ok () ∧
    (∃ n' ∈ (PATCH (some note.doctorId) now body store).2,
      n'.id = note.id ∧ n'.source = note.source ∧
      n'.doctorId = note.doctorId ∧ n'.createdAt = note.createdAt ∧
      n'.fileUrl = note.fileUrl ∧ n'.fileName = note.fileName ∧
      n'.fileType = note.fileType ∧ n'.filePublicId = note.filePublicId ∧
      (note.source = "manual" → body.contentHtml = none → n'.contentHtml = "") ∧
      (note.source ≠ "manual" → body.ocrText = none → n'.ocrText = "")) ∧
    (∀ m ∈ store, m.id ≠ note.id →
      m ∈ (PATCH (some note.doctorId) now body store).2) := by
  have hne : note.id ≠ "" := ne_empty_of_validObjectId hvalid
  have hidt : truthy (some note.id) = true := by simpa [truthy] using hne
  have hfind := find?_owner_of_nodup hnd hmem
  have hres : PATCH (some note.doctorId) now body store =
      (.ok (), updateFirst (fun n => n.id == note.id)
        (patchNote body now note) store) := by
    simp [PATCH, hidt, ht, hid, hvalid, hfind]
  rw [hres]
  refine ⟨rfl, ⟨patchNote body now note note, mem_updateFirst_self _ hnd hmem,
    ?_, ?_, ?_, ?_, ?_, ?_, ?_, ?_, ?_, ?_⟩, ?_⟩
  · unfold patchNote; split <;> rfl
  · unfold patchNote; split <;> rfl
  · unfold patchNote; split <;> rfl
  · unfold patchNote; split <;> rfl
  · unfold patchNote; split <;> rfl
  · unfold patchNote; split <;> rfl
  · unfold patchNote; split <;> rfl
  · unfold patchNote; split <;> rfl
  · intro hsrc hnone
    have hc : (note.source == "manual") = true := by simpa using hsrc
    unfold patchNote
    rw [if_pos hc, hnone]
    rfl
  · intro hsrc hnone
    have hc : (note.source == "manual") = false := by simpa using hsrc
    unfold patchNote
    rw [if_neg (by simp [hc]), hnone]
    rfl
  · intro m hm hne'
    exact mem_updateFirst_of_ne _ hm hne'

/-- A PATCH body carrying only id and title (a title-only update). -/
def titleOnlyPatch : PatchBody := { id := some sampleId, title := some "Visit 1c" }

/-- Witness for C10 at a concrete store: the owner updates only the
title of the manual note; its `contentHtml` is erased to the empty
string while all other fields survive. -/
theorem C10_patch_overwrites_content_witness :
    (PATCH (some sampleManual.doctorId) 20 titleOnlyPatch [sampleManual]).1 = .ok () ∧
    (∃ n' ∈ (PATCH (some sampleManual.doctorId) 20 titleOnlyPatch [sampleManual]).2,
      n'.id = sampleManual.id ∧ n'.source = sampleManual.source ∧
      n'.doctorId = sampleManual.doctorId ∧ n'.createdAt = sampleManual.createdAt ∧
      n'.fileUrl = sampleManual.fileUrl ∧ n'.fileName = sampleManual.fileName ∧
      n'.fileType = sampleManual.fileType ∧ n'.filePublicId = sampleManual.filePublicId ∧
      (sampleManual.source = "manual" → titleOnlyPatch.contentHtml = none →
        n'.contentHtml = "") ∧
      (sampleManual.source ≠ "manual" → titleOnlyPatch.ocrText = none →
        n'.ocrText = "")) ∧
    (∀ m ∈ [sampleManual], m.id ≠ sampleManual.id →
      m ∈ (PATCH (some sampleManual.doctorId) 20 titleOnlyPatch [sampleManual]).2) :=
  C10_patch_overwrites_content [sampleManual] sampleManual 20 titleOnlyPatch
    (by decide) (by decide) (by decide) (by decide) (by decide)

/-- Counterexample for C9 as stated: an authenticated PATCH whose body
carries the non-empty malformed id `"zzz"` but no title answers the 400
required-fields response — not an uncaught ObjectId exception — because
the field validation runs before the ObjectId constructor. -/
theorem C9_counterexample :
    "zzz" ≠ "" ∧ isValidObjectId "zzz" = false ∧
    PATCH (some "doc@x") 20 ({ id := some "zzz" } : PatchBody) [sampleManual] =
      (.err 400 "Missing required fields.", [sampleManual]) := by
  decide

/-- C9 as amended: once the body passes the handler's own field
validation (non-empty id, and for PATCH a non-empty title), a non-empty
id that is not a well-formed ObjectId string makes the handler throw the
ObjectId constructor's exception — neither the 404 nor a 400 response —
with the store left unmodified. -/
theorem C9_invalid_objectid_throws :
    (∀ (email idStr : String) (now : Nat) (body : PatchBody)
      (store : List Note),
      body.id = some idStr → idStr ≠ "" → truthy body.title = true →
      isValidObjectId idStr = false →
      PATCH (some email) now body store = (.thrown, store)) ∧
    (∀ (email idStr : String) (store : List Note),
      idStr ≠ "" → isValidObjectId idStr = false →
      DELETE (some email) (some idStr) store = (.thrown, store)) := by
  constructor
  · intro email idStr now body store hid hne ht hinvalid
    have hidt : truthy (some idStr) = true := by simpa [truthy] using hne
    simp [PATCH, hid, hidt, ht, hinvalid]
  · intro email idStr store hne hinvalid
    have hidt : truthy (some idStr) = true := by simpa [truthy] using hne
    simp [DELETE, hidt, hinvalid]

/-- Witness for the amended C9: id `"zzz"` with a title present makes
PATCH throw, and makes DELETE throw, leaving the store unchanged. -/
theorem C9_invalid_objectid_throws_witness :
    PATCH (some "doc@x") 20
        ({ id := some "zzz", title := some "t" } : PatchBody) [sampleManual] =
      (.thrown, [sampleManual]) ∧
    DELETE (some "doc@x") (some "zzz") [sampleManual] =
      (.thrown, [sampleManual]) :=
  ⟨C9_invalid_objectid_throws.1 "doc@x" "zzz" 20
      { id := some "zzz", title := some "t" } [sampleManual]
      (by decide) (by decide) (by decide) (by decide),
   C9_invalid_objectid_throws.2 "doc@x" "zzz" [sampleManual]
      (by decide) (by decide)⟩

/-- A POST draft for a manual note that also smuggles in a transcript. -/
def smuggledDraft : PostBody :=
  { title := some "t", source := some "manual", ocrText := some "spurious" }

/-- Counterexample for C4 as stated: a create of a `manual` note whose
draft carries `ocrText` stores that transcript verbatim — the field
inapplicable to the origin is not ignored or zeroed on write, so the
claimed stored-note invariant fails at creation. -/
theorem C4_counterexample :
    (POST (some "doc@x") 0 sampleId smuggledDraft []).1 = .ok sampleId ∧
    ∃ n ∈ (POST (some "doc@x") 0 sampleId smuggledDraft []).2,
      n.source = "manual" ∧ n.ocrText = "spurious" ∧ n.ocrText ≠ "" := by
  decide

/-- C4 as amended: create still fails with the 400 validation response
exactly when `title` or `source` is falsy, but on success both content
fields are stored verbatim from the draft with absent fields defaulting
to the empty string — the origin-inapplicable field is not zeroed when
supplied.  When the draft omits the inapplicable field it is stored
empty, and a subsequent owner PATCH never modifies the inapplicable
field, so notes created by the application's own clients (which supply
only the origin-applicable field) do satisfy the invariant and keep it. -/
theorem C4_create_validates_and_stores_verbatim :
    (∀ (email : String) (now : Nat) (newId : String) (body : PostBody)
      (store : List Note),
      (truthy body.title = false ∨ truthy body.source = false) →
      POST (some email) now newId body store =
        (.err 400 "Missing required fields.", store)) ∧
    (∀ (email : String) (now : Nat) (newId : String) (body : PostBody)
      (store : List Note),
      truthy body.title = true → truthy body.source = true →
      POST (some email) now newId body store =
        (.ok newId, store ++ [{
          id := newId, doctorId := email,
          title := body.title.getD "", source := body.source.getD "",
          contentHtml := body.contentHtml.getD "",
          ocrText := body.ocrText.getD "",
          fileUrl := body.fileUrl.getD "", fileName := body.fileName.getD "",
          fileType := body.fileType.getD "",
          filePublicId := body.filePublicId.getD "",
          createdAt := now, updatedAt := none }])) ∧
    (∀ (store : List Note) (note : Note) (now : Nat) (body : PatchBody),
      (store.map Note.id).Nodup → note ∈ store →
      body.id = some note.id → truthy body.title = true →
      isValidObjectId note.id = true →
      (note.source = "manual" →
        ∃ n' ∈ (PATCH (some note.doctorId) now body store).2,
          n'.id = note.id ∧ n'.ocrText = note.ocrText) ∧
      (note.source ≠ "manual" →
        ∃ n' ∈ (PATCH (some note.doctorId) now body store).2,
          n'.id = note.id ∧ n'.contentHtml = note.contentHtml)) := by
  refine ⟨?_, ?_, ?_⟩
  · intro email now newId body store habs
    rcases habs with h | h <;> simp [POST, h]
  · intro email now newId body store h1 h2
    simp [POST, h1, h2]
  · intro store note now body hnd hmem hid ht hvalid
    have hne : note.id ≠ "" := ne_empty_of_validObjectId hvalid
    have hidt : truthy (some note.id) = true := by simpa [truthy] using hne
    have hfind := find?_owner_of_nodup hnd hmem
    have hres : PATCH (some note.doctorId) now body store =
        (.ok (), updateFirst (fun n => n.id == note.id)
          (patchNote body now note) store) := by
      simp [PATCH, hidt, ht, hid, hvalid, hfind]
    rw [hres]
    constructor
    · intro hsrc
      have hc : (note.source == "manual") = true := by simpa using hsrc
      refine ⟨patchNote body now note note, mem_updateFirst_self _ hnd hmem, ?_, ?_⟩
      · unfold patchNote; split <;> rfl
      · unfold patchNote; rw [if_pos hc]
    · intro hsrc
      have hc : (note.source == "manual") = false := by simpa using hsrc
      refine ⟨patchNote body now note note, mem_updateFirst_self _ hnd hmem, ?_, ?_⟩
      · unfold patchNote; split <;> rfl
      · unfold patchNote; rw [if_neg (by simp [hc])]

/-- Witness for the amended C4: a draft without a source is rejected
with 400, and a scan draft omitting `contentHtml` stores it empty. -/
theorem C4_create_validates_and_stores_verbatim_witness :
    POST (some "doc@x") 0 sampleId ({ title := some "t" } : PostBody) [] =
      (.err 400 "Missing required fields.", []) ∧
    POST (some "doc@x") 7 sampleId
        ({ title := some "s", source := some "scan", ocrText := some "txt" } :
          PostBody) [] =
      (.ok sampleId, [{
        id := sampleId, doctorId := "doc@x", title := "s", source := "scan",
        contentHtml := "", ocrText := "txt", fileUrl := "", fileName := "",
        fileType := "", filePublicId := "", createdAt := 7,
        updatedAt := none }]) :=
  ⟨C4_create_validates_and_stores_verbatim.1 "doc@x" 0 sampleId
      { title := some "t" } [] (Or.inr (by decide)),
   C4_create_validates_and_stores_verbatim.2.1 "doc@x" 7 sampleId
      { title := some "s", source := some "scan", ocrText := some "txt" } []
      (by decide) (by decide)⟩

/-!
Helper lemmas for the ingestion pipeline.
-/

/-- Running a concatenation of event lists runs them in sequence. -/
theorem applyEvents_append (a b : List UiEvent) (s : UiState) :
    applyEvents (a ++ b) s = applyEvents b (applyEvents a s) := by
  simp [applyEvents, List.foldl_append]

/-- A run of progress setters only moves `ocrProgress`, to the last
value written (or leaves it alone when there is none). -/
theorem applyEvents_setProgress (vs : List ℤ) (s : UiState) :
    applyEvents (vs.map UiEvent.setOcrProgress) s =
      { s with ocrProgress := vs.foldl (fun _ v => v) s.ocrProgress } := by
  induction vs generalizing s with
  | nil => simp [applyEvents]
  | cons v vs ih =>
      simp only [List.map_cons, applyEvents, List.foldl_cons, applyEvent]
      exact ih { s with ocrProgress := v }

/-- Effect of the synchronous prologue of `handleScanFile`: the job
state is fully reset for the newly selected file. -/
theorem applyEvents_scanPrologue (file : ScanFile) (s : UiState) :
    applyEvents (scanPrologue file) s =
      { scanFile := some file, scanPreview := none, ocrText := "",
        ocrProgress := 0, ocrBusy := true } := by
  simp [scanPrologue, applyEvents, applyEvent]

/-- C5: one ingestion run always completes (the busy flag ends false);
on recognition success the transcript is the recognised text with
surrounding whitespace trimmed, and on any rejected step — preview
decode, PDF rasterisation, or recognition — the transcript is exactly
the fixed fallback string, never an unhandled fault. -/
theorem C5_pipeline_terminal (env : ScanEnv) (file : ScanFile) (s0 : UiState) :
    (handleScanFile env file s0).ocrBusy = false ∧
    (∀ p src text,
      env.fileToBase64 file = .ok p → ocrRoute env file = .ok src →
      (env.recognize src).result = .ok text →
      (handleScanFile env file s0).ocrText = jsTrim text) ∧
    ((env.fileToBase64 file = .error () ∨
      ocrRoute env file = .error () ∨
      (∃ src, ocrRoute env file = .ok src ∧
        (env.recognize src).result = .error ())) →
      (handleScanFile env file s0).ocrText = fallbackMessage) := by
  refine ⟨?_, ?_, ?_⟩
  · simp [handleScanFile, scanTrace, applyEvents_append, applyEvents, applyEvent]
  · intro p src text henc hroute hres
    simp [handleScanFile, scanTrace, scanBody, henc, hroute, hres,
      applyEvents_append, applyEvents, applyEvent, progressEvents,
      applyEvents_setProgress]
  · intro habs
    cases henc : env.fileToBase64 file with
    | error e =>
        simp [handleScanFile, scanTrace, scanBody, henc,
          applyEvents_append, applyEvents, applyEvent]
    | ok p =>
        cases hroute : ocrRoute env file with
        | error e =>
            simp [handleScanFile, scanTrace, scanBody, henc, hroute,
              applyEvents_append, applyEvents, applyEvent]
        | ok src =>
            rcases habs with h | h | ⟨src', hsrc', hres'⟩
            · rw [henc] at h; cases h
            · rw [hroute] at h; cases h
            · rw [hroute] at hsrc'
              cases hsrc'
              simp [handleScanFile, scanTrace, scanBody, henc, hroute, hres',
                applyEvents_append, applyEvents, applyEvent, progressEvents,
                applyEvents_setProgress]

/-- Environment in which every collaborator succeeds and recognition
yields text with surrounding whitespace. -/
def okScanEnv : ScanEnv :=
  { fileToBase64 := fun _ => .ok "data:preview"
    renderPdfToImage := fun _ => .ok "data:raster"
    recognize := fun _ =>
      { messages := [{ status := "recognizing text", progress := 1/2 }]
        result := .ok " hello " } }

/-- Environment in which recognition rejects. -/
def failScanEnv : ScanEnv :=
  { fileToBase64 := fun _ => .ok "data:preview"
    renderPdfToImage := fun _ => .error ()
    recognize := fun _ => { messages := [], result := .error () } }

/-- An ordinary image file. -/
def sampleImageFile : ScanFile := { name := "a.png", mimeType := "image/png" }

/-- Component state before any job. -/
def initUiState : UiState :=
  { scanFile := none, scanPreview := none, ocrText := "",
    ocrProgress := 0, ocrBusy := false }

/-- Witness for C5: a successful run stores the trimmed text, a run
whose recognition rejects stores the fallback, and both end not busy. -/
theorem C5_pipeline_terminal_witness :
    (handleScanFile okScanEnv sampleImageFile initUiState).ocrText =
      jsTrim " hello " ∧
    (handleScanFile failScanEnv sampleImageFile initUiState).ocrText =
      fallbackMessage ∧
    (handleScanFile okScanEnv sampleImageFile initUiState).ocrBusy = false :=
  ⟨(C5_pipeline_terminal okScanEnv sampleImageFile initUiState).2.1
      "data:preview" (.originalFile sampleImageFile) " hello " rfl rfl rfl,
   (C5_pipeline_terminal failScanEnv sampleImageFile initUiState).2.2
      (Or.inr (Or.inr ⟨.originalFile sampleImageFile, rfl, rfl⟩)),
   (C5_pipeline_terminal okScanEnv sampleImageFile initUiState).1⟩

/-- The published progress values of concatenated traces concatenate. -/
theorem progressWrites_append (a b : List UiEvent) :
    progressWrites (a ++ b) = progressWrites a ++ progressWrites b := by
  simp [progressWrites]

/-- The published progress values of a run of progress setters are
exactly the values written. -/
theorem progressWrites_map_setOcrProgress (vs : List ℤ) :
    progressWrites (vs.map UiEvent.setOcrProgress) = vs := by
  induction vs with
  | nil => rfl
  | cons v vs ih => simpa [progressWrites] using ih

/-- Values the logger publishes stay within 0 and 100 whenever the
recognizer's raw per-message progress stays within 0 and 1. -/
theorem loggerUpdates_bounds {msgs : List OcrMessage}
    (h : ∀ m ∈ msgs, 0 ≤ m.progress ∧ m.progress ≤ 1) :
    ∀ v ∈ loggerUpdates msgs, 0 ≤ v ∧ v ≤ 100 := by
  intro v hv
  obtain ⟨m, hm, he⟩ := List.mem_filterMap.mp hv
  unfold loggerEmit at he
  split_ifs at he with hc
  · obtain ⟨h0, h1⟩ := h m hm
    cases he
    constructor
    · rw [jsRound, Int.floor_nonneg]
      have : (0:ℚ) ≤ m.progress * 100 := mul_nonneg h0 (by norm_num)
      linarith
    · rw [jsRound]
      have hup : m.progress * 100 + 1 / 2 ≤ (201:ℚ) / 2 := by
        have : m.progress * 100 ≤ 1 * 100 :=
          mul_le_mul_of_nonneg_right h1 (by norm_num)
        linarith
      calc ⌊m.progress * 100 + 1 / 2⌋ ≤ ⌊(201:ℚ) / 2⌋ := Int.floor_le_floor hup
        _ = 100 := by norm_num [Int.floor_eq_iff]

/-- Published values are non-decreasing whenever the recognizer's raw
progress is non-decreasing across its recognizing-stage messages. -/
theorem loggerUpdates_mono {msgs : List OcrMessage}
    (h : msgs.Pairwise (fun a b => a.status = recognizingStatus →
      b.status = recognizingStatus → a.progress ≤ b.progress)) :
    (loggerUpdates msgs).Pairwise (fun a b : ℤ => a ≤ b) := by
  unfold loggerUpdates
  rw [List.pairwise_filterMap]
  refine h.imp ?_
  intro a b hab x hx y hy
  rw [Option.mem_def] at hx hy
  unfold loggerEmit at hx hy
  split_ifs at hx hy with hca hcb
  · cases hx
    cases hy
    have hp := hab hca.1 hcb.1
    rw [jsRound, jsRound]
    have : a.progress * 100 ≤ b.progress * 100 :=
      mul_le_mul_of_nonneg_right hp (by norm_num)
    exact Int.floor_le_floor (by linarith)

/-- C6: under the recognizer contract — raw per-message progress within
0 and 1, non-decreasing across recognizing-stage messages — the progress
values one job publishes start with the reset to 0 issued when the file
is selected, are monotonically non-decreasing, and stay within 0 and
100; and a message outside the "recognizing text" sub-stage publishes
nothing. -/
theorem C6_progress_published (env : ScanEnv) (file : ScanFile)
    (hbound : ∀ src, ∀ m ∈ (env.recognize src).messages,
      0 ≤ m.progress ∧ m.progress ≤ 1)
    (hmono : ∀ src, ((env.recognize src).messages).Pairwise
      (fun a b => a.status = recognizingStatus →
        b.status = recognizingStatus → a.progress ≤ b.progress)) :
    (progressWrites (scanTrace env file)).head? = some 0 ∧
    List.Pairwise (fun a b : ℤ => a ≤ b) (progressWrites (scanTrace env file)) ∧
    (∀ v ∈ progressWrites (scanTrace env file), 0 ≤ v ∧ v ≤ 100) ∧
    (∀ m : OcrMessage, m.status ≠ recognizingStatus → loggerEmit m = none) := by
  have hL : ∃ L, progressWrites (scanTrace env file) = 0 :: L ∧
      (∀ v ∈ L, 0 ≤ v ∧ v ≤ 100) ∧
      List.Pairwise (fun a b : ℤ => a ≤ b) L := by
    have htr : progressWrites (scanTrace env file) =
        progressWrites (scanPrologue file) ++ progressWrites (scanBody env file)
          ++ progressWrites [UiEvent.setOcrBusy false] := by
      rw [scanTrace, progressWrites_append, progressWrites_append]
    cases henc : env.fileToBase64 file with
    | error e =>
        refine ⟨[], ?_, by simp, List.Pairwise.nil⟩
        rw [htr]
        simp only [scanBody, henc]
        simp [progressWrites, scanPrologue]
    | ok p =>
        cases hroute : ocrRoute env file with
        | error e =>
            refine ⟨[], ?_, by simp, List.Pairwise.nil⟩
            rw [htr]
            simp only [scanBody, henc, hroute]
            simp [progressWrites, scanPrologue]
        | ok src =>
            refine ⟨loggerUpdates (env.recognize src).messages, ?_,
              loggerUpdates_bounds (hbound src), loggerUpdates_mono (hmono src)⟩
            have hbody : ∃ t, scanBody env file =
                UiEvent.setScanPreview (some p) ::
                  (progressEvents (env.recognize src).messages ++
                    [UiEvent.setOcrText t]) := by
              simp only [scanBody, henc, hroute]
              cases (env.recognize src).result with
              | error e => exact ⟨fallbackMessage, rfl⟩
              | ok text => exact ⟨jsTrim text, rfl⟩
            obtain ⟨t, hbody⟩ := hbody
            rw [htr, hbody]
            have hrest : progressWrites
                (UiEvent.setScanPreview (some p) ::
                  (progressEvents (env.recognize src).messages ++
                    [UiEvent.setOcrText t])) =
                loggerUpdates (env.recognize src).messages := by
              rw [show UiEvent.setScanPreview (some p) ::
                  (progressEvents (env.recognize src).messages ++
                    [UiEvent.setOcrText t]) =
                  [UiEvent.setScanPreview (some p)] ++
                  (progressEvents (env.recognize src).messages ++
                    [UiEvent.setOcrText t]) from rfl,
                progressWrites_append, progressWrites_append, progressEvents,
                progressWrites_map_setOcrProgress]
              simp [progressWrites]
            rw [hrest]
            simp [progressWrites, scanPrologue]
  obtain ⟨L, hEq, hBd, hPw⟩ := hL
  rw [hEq]
  refine ⟨rfl, ?_, ?_, ?_⟩
  · exact List.pairwise_cons.mpr ⟨fun v hv => (hBd v hv).1, hPw⟩
  · intro v hv
    rcases List.mem_cons.mp hv with rfl | hv'
    · exact ⟨le_refl 0, by norm_num⟩
    · exact hBd v hv'
  · intro m hm
    unfold loggerEmit
    rw [if_neg]
    intro hc
    exact hm hc.1

/-- Witness for C6: the single-message run of `okScanEnv` publishes the
reset 0 followed by 50, monotone and in range. -/
theorem C6_progress_published_witness :
    (progressWrites (scanTrace okScanEnv sampleImageFile)).head? = some 0 ∧
    List.Pairwise (fun a b : ℤ => a ≤ b)
      (progressWrites (scanTrace okScanEnv sampleImageFile)) ∧
    (∀ v ∈ progressWrites (scanTrace okScanEnv sampleImageFile),
      0 ≤ v ∧ v ≤ 100) ∧
    (∀ m : OcrMessage, m.status ≠ recognizingStatus → loggerEmit m = none) :=
  C6_progress_published okScanEnv sampleImageFile
    (fun _ m hm => by
      simp only [okScanEnv, List.mem_singleton] at hm
      subst hm
      exact ⟨by norm_num, by norm_num⟩)
    (fun _ => List.pairwise_singleton _ _)

/-- Media type check for image files: an image media type is one whose
declared type begins with `image/` (the HTML input's accept filter
`image/*,application/pdf` admits exactly images and PDF). -/
def isImageMime (t : String) : Bool :=
  "image/".data.isPrefixOf t.data

/-- A selected file whose declared media type is neither an image type
nor PDF. -/
def plainTextFile : ScanFile := { name := "notes.txt", mimeType := "text/plain" }

/-- Environment whose preview succeeds and whose recognizer reads the
text `hi` out of whatever it is handed. -/
def anyFileEnv : ScanEnv :=
  { fileToBase64 := fun _ => .ok "data:text"
    renderPdfToImage := fun _ => .error ()
    recognize := fun _ => { messages := [], result := .ok "hi" } }

/-- Counterexample for C7 as stated: a selected `text/plain` file —
neither an image type nor PDF — is handed to the Recognizer as-is
(`recognizerInput` is the original file, not `none`), and the
recognizer's output even becomes the job's transcript; the pipeline has
no media-type gate and does not fail at the Previewing stage. -/
theorem C7_counterexample :
    isImageMime plainTextFile.mimeType = false ∧
    plainTextFile.mimeType ≠ "application/pdf" ∧
    recognizerInput anyFileEnv plainTextFile =
      some (.originalFile plainTextFile) ∧
    (handleScanFile anyFileEnv plainTextFile initUiState).ocrText = "hi" := by
  decide

/-- C7 as amended: the pipeline applies no media-type check at all —
every selected file whose declared type is not PDF, the unsupported
types included, is handed to the Recognizer unchanged as soon as its
preview decodes; only the file input's accept filter (images and PDF)
advises the selection. -/
theorem C7_no_media_type_gate (env : ScanEnv) (file : ScanFile) (p : String)
    (hpdf : file.mimeType ≠ "application/pdf")
    (hprev : env.fileToBase64 file = .ok p) :
    recognizerInput env file = some (.originalFile file) := by
  simp [recognizerInput, hprev, ocrRoute, hpdf, Except.toOption]

/-- Witness for the amended C7 at the concrete `text/plain` file. -/
theorem C7_no_media_type_gate_witness :
    recognizerInput anyFileEnv plainTextFile =
      some (.originalFile plainTextFile) :=
  C7_no_media_type_gate anyFileEnv plainTextFile "data:text" (by decide) rfl

/-- First selected file of the superseded job. -/
def fileA : ScanFile := { name := "a.png", mimeType := "image/png" }

/-- Second selected file, superseding the first. -/
def fileB : ScanFile := { name := "b.png", mimeType := "image/png" }

/-- Environment whose recognition resolves to the text ` stale `. -/
def staleEnv : ScanEnv :=
  { fileToBase64 := fun _ => .ok "data:a"
    renderPdfToImage := fun _ => .error ()
    recognize := fun _ => { messages := [], result := .ok " stale " } }

/-- Counterexample for C8 as stated: interleave two jobs so that job A's
recognition resolves after job B started.  The merged event sequence is a
genuine interleaving — job A contributes its full trace, job B the prefix
up to its pending recognition — yet the final state shows job B as the
current job while carrying job A's stale text as its transcript: nothing
discards the superseded result. -/
theorem C8_counterexample :
    scanTrace staleEnv fileA =
      (scanPrologue fileA ++ [.setScanPreview (some "data:a")]) ++
        [.setOcrText "stale", .setOcrBusy false] ∧
    (scanTrace staleEnv fileB).take 6 =
      scanPrologue fileB ++ [.setScanPreview (some "data:a")] ∧
    (applyEvents
        ((scanPrologue fileA ++ [.setScanPreview (some "data:a")]) ++
         (scanPrologue fileB ++ [.setScanPreview (some "data:a")]) ++
         [.setOcrText "stale", .setOcrBusy false]) initUiState).scanFile =
      some fileB ∧
    (applyEvents
        ((scanPrologue fileA ++ [.setScanPreview (some "data:a")]) ++
         (scanPrologue fileB ++ [.setScanPreview (some "data:a")]) ++
         [.setOcrText "stale", .setOcrBusy false]) initUiState).ocrText =
      "stale" := by
  decide

/-- C8 as amended: selecting a new file does reset the job state (file,
preview, transcript, progress), but no guard discards a superseded job's
eventual result: state setters land in arrival order, so when the
previous job's recognition resolves after a newer job started, its
trimmed text overwrites the newer job's transcript and clears the busy
flag — last writer wins. -/
theorem C8_stale_result_overwrites (s0 s1 : UiState) (f1 f2 : ScanFile)
    (p1 p2 : String) (t : String) :
    applyEvents (scanPrologue f2) s1 =
      { scanFile := some f2, scanPreview := none, ocrText := "",
        ocrProgress := 0, ocrBusy := true } ∧
    applyEvents
        ((scanPrologue f1 ++ [.setScanPreview (some p1)]) ++
         (scanPrologue f2 ++ [.setScanPreview (some p2)]) ++
         [.setOcrText (jsTrim t), .setOcrBusy false]) s0 =
      { scanFile := some f2, scanPreview := some p2, ocrText := jsTrim t,
        ocrProgress := 0, ocrBusy := false } :=
  ⟨applyEvents_scanPrologue f2 s1, by
    simp only [applyEvents_append, applyEvents_scanPrologue]
    simp [applyEvents, applyEvent]⟩
